import Mathlib

/-!
Shallow embedding of the smart_jit decision-and-dispatch engine
(`src/smart_jit/smartjit.py`, `src/smart_jit/action.py`,
`src/smart_jit/warnings.py`) and proofs about its dispatch behaviour.

The embedding models `SmartJitDispatcher`: its mutable state (the in-memory
overload table, the persistent artifact cache, the per-signature hit
counters, and the `_can_compile` gate), the observable event/warning trace,
and Python exceptions via `Except`.  External collaborators (numba's
compiler, its overload resolution, the original Python function body) are
modelled from the specification's collaborator contracts.
-/

namespace SmartJit

/-- A Python runtime value, as far as the dispatcher inspects one:
an int, a float, a string, or a list (the categories exercised by the
repository's example and tests). -/
inductive PyVal where
  | vint (n : Int)
  | vfloat (n : Int)
  | vstr (s : String)
  | vlist
deriving DecidableEq, Repr

/-- An inferred argument shape, the result of `self.typeof_pyval(a)`
(numba type inference, external collaborator: a pure function from a
value's shape category to a type descriptor). -/
inductive Shape where
  | int64
  | float64
  | unicode
  | listTy
deriving DecidableEq, Repr

/-- `typeof_pyval`: pure shape inference on argument values
(depends only on the value's category, never its contents). -/
def typeof_pyval : PyVal → Shape
  | .vint _ => .int64
  | .vfloat _ => .float64
  | .vstr _ => .unicode
  | .vlist => .listTy

/-- A shape signature: the ordered tuple of inferred argument shapes,
`tuple([self.typeof_pyval(a) for a in args])`. -/
def Sig : Type := List Shape
deriving instance DecidableEq, Repr for Sig

/-- String rendering of a shape, used in the fallback warning message. -/
def Shape.render : Shape → String
  | .int64 => "int64"
  | .float64 => "float64"
  | .unicode => "unicode_type"
  | .listTy => "reflected list"

/-- `Action` from `src/smart_jit/action.py`, an IntEnum with members
INTERPRETER = 1, JIT = 2, RAISE_EXCEPTION = 3, together with the
possibility (checked at runtime by `__call__`) that the user policy
returns some other object, carried here as its string representation. -/
inductive PolicyRet where
  | interpreter
  | jit
  | raiseException
  | other (repr : String)
deriving DecidableEq, Repr

/-- Python exceptions the dispatch path can raise.  `noMatchingDefinition`
and `invalidUseJitReturn` surface as `TypeError` in Python;
`assertionError` is an `AssertionError`; `compilationFailure` stands for
an error propagated from the external compiler; `pyFuncError` is an
exception raised by the user's original function body. -/
inductive Err where
  | assertionError (msg : String)
  | noMatchingDefinition (sig : Sig) (known : List Sig)
  | invalidUseJitReturn (msg : String)
  | compilationFailure
  | pyFuncError
deriving DecidableEq, Repr

/-- Which exception classes surface as `TypeError` in Python. -/
def Err.isTypeError : Err → Bool
  | .noMatchingDefinition _ _ => true
  | .invalidUseJitReturn _ => true
  | _ => false

/-- The `smart_jit_events` dict entry for the jit kind: "jit_execution". -/
def jitEventKind : String := "jit_execution"

/-- The `smart_jit_events` dict entry for the interpreter kind:
"interpreter_execution". -/
def interpreterEventKind : String := "interpreter_execution"

/-- Observable events of a dispatch: the two internal lookups, an
invocation of the user policy callable, a fresh compilation by the
external compiler, the numba lifecycle start/end events (keyed by the
`smart_jit_events` kind string), and an emitted fallback warning. -/
inductive Ev where
  | overloadCheck (sig : Sig)
  | cacheLookup (sig : Sig)
  | policyInvoked
  | compileFresh (sig : Sig)
  | startEvent (kind : String)
  | endEvent (kind : String)
  | warn (msg : String)
deriving DecidableEq, Repr

/-- Mutable dispatcher state: the in-memory overload table
(`self.overloads`, a dict keyed by signature, exposed as
`nopython_signatures`), the persistent on-disk artifact cache
(`self._cache`, keyed by signature), the per-signature disk-cache hit
counters (`self._cache_hits`), and the compilation gate
(`self._can_compile`). -/
structure St where
  overloads : List Sig
  diskCache : List Sig
  cacheHits : List (Sig × Nat)
  canCompile : Bool
deriving DecidableEq, Repr

/-- The dispatcher's immutable configuration together with the external
collaborators it delegates to: whether a fresh compilation of a signature
succeeds, the value a compiled specialization returns, the original
Python function body, and the user policy callable `use_jit` (with the
name of the supplied callable and the decorated function's name). -/
structure Env where
  compileOk : Sig → Bool
  jitResult : List PyVal → PyVal
  pyFunc : List PyVal → Except Err PyVal
  use_jit : List PyVal → PolicyRet
  use_jit_name : String
  warn_on_fallback : Bool
  funcName : String

/-- Pure signature derivation used inline by the dispatcher methods:
`tuple([self.typeof_pyval(a) for a in args])`. -/
def sigOf (args : List PyVal) : Sig := args.map typeof_pyval

/-- `SmartJitDispatcher._get_signature_from_args`: asserts that no
keyword arguments were passed, then derives the shape signature. -/
def get_signature_from_args (args : List PyVal) (kwargs : Bool) :
    Except Err Sig :=
  if kwargs then .error (.assertionError "kwargs not handled")
  else .ok (sigOf args)

/-- `self.overloads[args] = cres` (numba `add_overload`): dict assignment
keyed by the signature, so a signature already present keeps a single
entry. -/
def addOverload (ovs : List Sig) (sig : Sig) : List Sig :=
  if sig ∈ ovs then ovs else ovs ++ [sig]

/-- `self._cache_hits[sig] += 1` on a Counter. -/
def bumpHit : List (Sig × Nat) → Sig → List (Sig × Nat)
  | [], sig => [(sig, 1)]
  | (s, n) :: rest, sig =>
      if s = sig then (s, n + 1) :: rest else (s, n) :: bumpHit rest sig

/-- Read a Counter entry, defaulting to 0. -/
def getHits : List (Sig × Nat) → Sig → Nat
  | [], _ => 0
  | (s, n) :: rest, sig => if s = sig then n else getHits rest sig

/-- Modelled from the spec: `matches_existing_family` is delegated to the
external compiler's overload resolution
(`self.typingctx.resolve_overload(self.py_func, sigs, args, kwargs,
unsafe_casting=False)`).  At the granularity of this embedding's `Shape`
universe no two distinct shapes are safe-castable to one another, so
resolution succeeds exactly when the signature list contains the exact
signature. -/
def resolve_overload (sigs : List Sig) (args : Sig) : Bool :=
  decide (args ∈ sigs)

/-- Result of a whole dispatched call: the dispatcher state after the
call, the trace of observable events it emitted, and either the returned
value or the propagated Python exception. -/
structure CallRes where
  st : St
  trace : List Ev
  result : Except Err PyVal
deriving Repr

/-- Modelled from the spec: `super().__call__` — the external Compiler
service consumed as `compile_and_run(function, arguments, permitted)`
(spec section 6).  If the call's signature resolves against an existing
in-memory specialization, that specialization runs.  Otherwise, when
compilation is permitted (`_can_compile`), the service first consults the
persistent artifact cache (a hit loads the specialization into the
overload table and increments that signature's hit counter), and only on
a double miss compiles fresh (inserting the new specialization into the
overload table and saving it to the persistent cache); a fresh
compilation may fail, propagating a compiler error.  When compilation is
not permitted and nothing matches, the call fails with the
"no matching definition" `TypeError`. -/
def superCall (env : Env) (st : St) (args : List PyVal) : CallRes :=
  let sig := sigOf args
  if resolve_overload st.overloads sig then
    ⟨st, [], .ok (env.jitResult args)⟩
  else if st.canCompile then
    if sig ∈ st.diskCache then
      ⟨{ st with overloads := addOverload st.overloads sig,
                 cacheHits := bumpHit st.cacheHits sig },
       [], .ok (env.jitResult args)⟩
    else if env.compileOk sig then
      ⟨{ st with overloads := addOverload st.overloads sig,
                 diskCache := st.diskCache ++ [sig] },
       [.compileFresh sig], .ok (env.jitResult args)⟩
    else ⟨st, [], .error .compilationFailure⟩
  else ⟨st, [], .error (.noMatchingDefinition sig st.overloads)⟩

/-- The fallback warning message:
`f"{func_name}({', '.join(map(str, arg_tys))}) not using JIT"`. -/
def fallbackMsg (funcName : String) (sig : Sig) : String :=
  funcName ++ "(" ++ String.intercalate ", " (sig.map Shape.render)
    ++ ") not using JIT"

/-- `SmartJitDispatcher._emit_fallback_warning`: builds the message from
the function name and the inferred argument shapes and emits it as a
warning exactly when `warn_on_fallback` is set. -/
def emit_fallback_warning (env : Env) (args : List PyVal) : List Ev :=
  if env.warn_on_fallback then [.warn (fallbackMsg env.funcName (sigOf args))]
  else []

/-- Result of `_function_in_overload`: the events it emitted and either
the resolution answer or the kwargs assertion failure. -/
structure OverloadRes where
  trace : List Ev
  result : Except Err Bool
deriving Repr

/-- `SmartJitDispatcher._function_in_overload`: derives the argument
shapes, reads the known nopython signatures, asserts that no keyword
arguments were passed, then asks the typing context to resolve the call
against the known signatures (with unsafe casting disabled). -/
def function_in_overload (st : St) (args : List PyVal) (kwargs : Bool) :
    OverloadRes :=
  let sig := sigOf args
  if kwargs then ⟨[], .error (.assertionError "kwargs not handled")⟩
  else ⟨[.overloadCheck sig], .ok (resolve_overload st.overloads sig)⟩

/-- Result of `_function_in_cache`: the possibly-updated state, the
events emitted, and whether a cached entry point was returned. -/
structure CacheRes where
  st : St
  trace : List Ev
  hit : Bool
deriving Repr

/-- `SmartJitDispatcher._function_in_cache`: attempts
`self._cache.load_overload(sig_args, ...)`; on a hit it increments
`self._cache_hits[sig_args]`, registers the loaded compilation result via
`add_overload`, and returns its entry point; on a miss it returns None. -/
def function_in_cache (st : St) (args : List PyVal) : CacheRes :=
  let sig := sigOf args
  if sig ∈ st.diskCache then
    ⟨{ st with cacheHits := bumpHit st.cacheHits sig,
               overloads := addOverload st.overloads sig },
     [.cacheLookup sig], true⟩
  else ⟨st, [.cacheLookup sig], false⟩

/-- `SmartJitDispatcher.can_compile`: reads `self._can_compile`. -/
def can_compile (st : St) : Bool := st.canCompile

/-- `SmartJitDispatcher._fallback_interpreter`: starts the
interpreter-kind event, emits the fallback warning, runs the original
Python function body, and ends the interpreter-kind event after the body
returns (the end event is not reached when the body raises). -/
def fallback_interpreter (env : Env) (st : St) (args : List PyVal) :
    CallRes :=
  let evs := Ev.startEvent interpreterEventKind :: emit_fallback_warning env args
  match env.pyFunc args with
  | .ok v => ⟨st, evs ++ [.endEvent interpreterEventKind], .ok v⟩
  | .error e => ⟨st, evs, .error e⟩

/-- `SmartJitDispatcher._run_jit_func`: starts the jit-kind event, calls
`super().__call__`, and ends the jit-kind event after it returns (the end
event is not reached when the compiled call raises). -/
def run_jit_func (env : Env) (st : St) (args : List PyVal) : CallRes :=
  let c := superCall env st args
  match c.result with
  | .ok v => ⟨c.st, Ev.startEvent jitEventKind :: c.trace
                      ++ [.endEvent jitEventKind], .ok v⟩
  | .error e => ⟨c.st, Ev.startEvent jitEventKind :: c.trace, .error e⟩

/-- The fixed text preceding the offending value in the error message for
an unrecognized `use_jit` return value. -/
def invalidMsgPre : String :=
  "Invalid value returned from \"use_jit\" keyword. Expected one of \"INTERPRETER, JIT_COMPILER, RAISE_EXCEPTION\" but got \""

/-- The message raised for an unrecognized `use_jit` return value. -/
def invalidUseJitMsg (r : String) : String :=
  invalidMsgPre ++ r ++ "\""

/-- `SmartJitDispatcher.__call__`, translated branch for branch:
first `_function_in_overload` (whose kwargs assertion aborts the call),
then `_function_in_cache`, then the `use_jit` policy.  On `Action.JIT`
the gate `_can_compile` is saved, set to true, `_run_jit_func` is run
(an exception here propagates without restoring the gate), the gate is
restored, `_explain_matching_error` fires if the restored gate is off,
and otherwise the final `return self._run_jit_func(...)` runs the jit
path a second time.  `Action.INTERPRETER` returns the interpreter
fallback; `Action.RAISE_EXCEPTION` raises via
`_explain_matching_error`; any other value raises the `TypeError` built
by `invalidUseJitMsg`. -/
def dispatcherCall (env : Env) (st : St) (args : List PyVal)
    (kwargs : Bool) : CallRes :=
  let ovr := function_in_overload st args kwargs
  match ovr.result with
  | .error e => ⟨st, ovr.trace, .error e⟩
  | .ok true =>
      let c := run_jit_func env st args
      ⟨c.st, ovr.trace ++ c.trace, c.result⟩
  | .ok false =>
      let cache := function_in_cache st args
      if cache.hit then
        let c := run_jit_func env cache.st args
        ⟨c.st, ovr.trace ++ cache.trace ++ c.trace, c.result⟩
      else
        let pre := ovr.trace ++ cache.trace ++ [Ev.policyInvoked]
        match env.use_jit args with
        | .jit =>
            let oldValue := cache.st.canCompile
            let gated := { cache.st with canCompile := true }
            let c1 := run_jit_func env gated args
            match c1.result with
            | .error e => ⟨c1.st, pre ++ c1.trace, .error e⟩
            | .ok _ =>
                let restored := { c1.st with canCompile := oldValue }
                if !can_compile restored then
                  ⟨restored, pre ++ c1.trace,
                   .error (.noMatchingDefinition (sigOf args)
                             restored.overloads)⟩
                else
                  let c2 := run_jit_func env restored args
                  ⟨c2.st, pre ++ c1.trace ++ c2.trace, c2.result⟩
        | .interpreter =>
            let c := fallback_interpreter env cache.st args
            ⟨cache.st, pre ++ c.trace, c.result⟩
        | .raiseException =>
            ⟨cache.st, pre,
             .error (.noMatchingDefinition (sigOf args) cache.st.overloads)⟩
        | .other v =>
            ⟨cache.st, pre, .error (.invalidUseJitReturn (invalidUseJitMsg v))⟩

/-- A finite sequence of positional-argument calls to one decorated
function: states are threaded through (also past a call that raised, as
the exception is assumed caught by the caller) and traces concatenate. -/
def runCalls (env : Env) (st : St) : List (List PyVal) → St × List Ev
  | [] => (st, [])
  | args :: rest =>
      let c := dispatcherCall env st args false
      let r := runCalls env c.st rest
      (r.1, c.trace ++ r.2)

/-- Whether an `Except` result is a success. -/
def exOk : Except Err PyVal → Bool
  | .ok _ => true
  | .error _ => false

/-- Whether an event is a fallback warning. -/
def isWarnEv : Ev → Bool
  | .warn _ => true
  | _ => false

/-- Whether an event is a persistent-cache lookup. -/
def isCacheLookupEv : Ev → Bool
  | .cacheLookup _ => true
  | _ => false

/-- Whether an event is a fresh compilation. -/
def isCompFreshEv : Ev → Bool
  | .compileFresh _ => true
  | _ => false

/-- Number of occurrences of one exact event in a trace. -/
def countEv (e : Ev) (tr : List Ev) : Nat :=
  tr.countP (fun x => x == e)

/-- Number of fallback warnings in a trace. -/
def countWarn (tr : List Ev) : Nat :=
  tr.countP (fun x => isWarnEv x)

/-- Number of fresh compilations in a trace. -/
def countCompFresh (tr : List Ev) : Nat :=
  tr.countP (fun x => isCompFreshEv x)

/-- Number of persistent-cache lookups in a trace. -/
def countCacheLookup (tr : List Ev) : Nat :=
  tr.countP (fun x => isCacheLookupEv x)

/-- Boolean list prefix test on characters. -/
def listIsPre : List Char → List Char → Bool
  | [], _ => true
  | _ :: _, [] => false
  | a :: as, b :: bs => a = b && listIsPre as bs

/-- Boolean list infix test on characters (needle, haystack). -/
def listIsInf (needle : List Char) : List Char → Bool
  | [] => listIsPre needle []
  | c :: rest => listIsPre needle (c :: rest) || listIsInf needle rest

/-- Whether `needle` occurs as a contiguous substring of `hay`. -/
def strContains (hay needle : String) : Bool :=
  listIsInf needle.data hay.data

/-! Concrete dispatcher configurations and states used to exercise the
model on the specification's scenarios. -/

/-- The shape signature of a single int argument. -/
def sigInt : Sig := [Shape.int64]

/-- A dispatcher configuration whose policy always returns `Action.JIT`
(the default `_default_checker`), with a compiler that always succeeds. -/
def alwaysJitEnv : Env where
  compileOk := fun _ => true
  jitResult := fun _ => .vint 0
  pyFunc := fun _ => .ok (.vint 0)
  use_jit := fun _ => .jit
  use_jit_name := "my_policy"
  warn_on_fallback := false
  funcName := "f"

/-- Same configuration but the external compiler fails on every fresh
compilation. -/
def failCompileEnv : Env :=
  { alwaysJitEnv with compileOk := fun _ => false }

/-- A configuration whose policy always returns `Action.RAISE_EXCEPTION`. -/
def rejectEnv : Env :=
  { alwaysJitEnv with use_jit := fun _ => .raiseException }

/-- A configuration whose policy (a callable named "my_policy") returns an
unrecognized value rendered as "BadValue". -/
def badPolicyEnv : Env :=
  { alwaysJitEnv with use_jit := fun _ => .other "BadValue" }

/-- A configuration whose policy always chooses the interpreter, with
`warn_on_fallback=True`. -/
def interpWarnEnv : Env :=
  { alwaysJitEnv with use_jit := fun _ => .interpreter,
                      warn_on_fallback := true }

/-- A fresh dispatcher state: nothing compiled, empty persistent cache,
compilation enabled (numba's default `_can_compile = True`). -/
def freshSt : St := ⟨[], [], [], true⟩

/-- A state with compilation disabled and nothing compiled. -/
def gateOffSt : St := ⟨[], [], [], false⟩

/-- A state in which the int signature is both in the in-memory overload
table and in the persistent cache. -/
def bothSt : St := ⟨[sigInt], [sigInt], [], true⟩

/-- A "new process with a warm disk cache" state: the persistent cache
holds the int signature but the in-memory overload table is empty. -/
def warmSt : St := ⟨[], [sigInt], [], true⟩

/-! ### Structural lemmas about the embedded dispatcher -/

theorem mem_addOverload_self (ovs : List Sig) (sig : Sig) :
    sig ∈ addOverload ovs sig := by
  unfold addOverload; split <;> simp_all

theorem mem_addOverload {s : Sig} (ovs : List Sig) (sig : Sig)
    (h : s ∈ ovs) : s ∈ addOverload ovs sig := by
  unfold addOverload; split <;> simp_all

theorem addOverload_nodup {ovs : List Sig} (sig : Sig) (h : ovs.Nodup) :
    (addOverload ovs sig).Nodup := by
  unfold addOverload
  split
  · exact h
  · next hmem =>
      refine List.Nodup.append h (List.nodup_singleton sig) ?_
      intro a ha hb
      simp only [List.mem_singleton] at hb
      exact hmem (hb ▸ ha)

theorem superCall_overloads_cases (env : Env) (st : St) (args : List PyVal) :
    (superCall env st args).st.overloads = st.overloads ∨
    (superCall env st args).st.overloads = addOverload st.overloads (sigOf args) := by
  unfold superCall
  by_cases h1 : resolve_overload st.overloads (sigOf args) = true <;>
    by_cases h2 : sigOf args ∈ st.diskCache <;>
    by_cases h3 : env.compileOk (sigOf args) = true <;>
    by_cases h4 : st.canCompile = true <;>
    simp [h1, h2, h3, h4]

theorem superCall_canCompile (env : Env) (st : St) (args : List PyVal) :
    (superCall env st args).st.canCompile = st.canCompile := by
  unfold superCall
  by_cases h1 : resolve_overload st.overloads (sigOf args) = true <;>
    by_cases h2 : sigOf args ∈ st.diskCache <;>
    by_cases h3 : env.compileOk (sigOf args) = true <;>
    by_cases h4 : st.canCompile = true <;>
    simp [h1, h2, h3, h4]

theorem superCall_trace_cases (env : Env) (st : St) (args : List PyVal) :
    (superCall env st args).trace = [] ∨
    (superCall env st args).trace = [Ev.compileFresh (sigOf args)] := by
  unfold superCall
  by_cases h1 : resolve_overload st.overloads (sigOf args) = true <;>
    by_cases h2 : sigOf args ∈ st.diskCache <;>
    by_cases h3 : env.compileOk (sigOf args) = true <;>
    by_cases h4 : st.canCompile = true <;>
    simp [h1, h2, h3, h4]

theorem run_jit_st (env : Env) (st : St) (args : List PyVal) :
    (run_jit_func env st args).st = (superCall env st args).st := by
  unfold run_jit_func
  cases h : (superCall env st args).result <;> simp [h]

theorem run_jit_result (env : Env) (st : St) (args : List PyVal) :
    (run_jit_func env st args).result = (superCall env st args).result := by
  unfold run_jit_func
  cases h : (superCall env st args).result <;> simp [h]

theorem run_jit_trace (env : Env) (st : St) (args : List PyVal) :
    (run_jit_func env st args).trace =
      Ev.startEvent jitEventKind :: (superCall env st args).trace ++
        (if exOk (superCall env st args).result then [Ev.endEvent jitEventKind]
         else []) := by
  unfold run_jit_func
  cases h : (superCall env st args).result <;> simp [h, exOk]

theorem fallback_st (env : Env) (st : St) (args : List PyVal) :
    (fallback_interpreter env st args).st = st := by
  unfold fallback_interpreter
  cases h : env.pyFunc args <;> simp [h]

theorem fallback_result (env : Env) (st : St) (args : List PyVal) :
    (fallback_interpreter env st args).result = env.pyFunc args := by
  unfold fallback_interpreter
  cases h : env.pyFunc args <;> simp [h]

theorem fallback_trace (env : Env) (st : St) (args : List PyVal) :
    (fallback_interpreter env st args).trace =
      Ev.startEvent interpreterEventKind :: emit_fallback_warning env args ++
        (if exOk (env.pyFunc args) then [Ev.endEvent interpreterEventKind]
         else []) := by
  unfold fallback_interpreter
  cases h : env.pyFunc args <;> simp [h, exOk]

theorem superCall_mono (env : Env) (st : St) (args : List PyVal)
    {s : Sig} (h : s ∈ st.overloads) :
    s ∈ (superCall env st args).st.overloads := by
  rcases superCall_overloads_cases env st args with ho | ho <;> rw [ho]
  · exact h
  · exact mem_addOverload _ _ h

theorem superCall_nodup (env : Env) (st : St) (args : List PyVal)
    (h : st.overloads.Nodup) :
    (superCall env st args).st.overloads.Nodup := by
  rcases superCall_overloads_cases env st args with ho | ho <;> rw [ho]
  · exact h
  · exact addOverload_nodup _ h

theorem run_jit_mono (env : Env) (st : St) (args : List PyVal)
    {s : Sig} (h : s ∈ st.overloads) :
    s ∈ (run_jit_func env st args).st.overloads := by
  rw [run_jit_st]; exact superCall_mono env st args h

theorem run_jit_nodup (env : Env) (st : St) (args : List PyVal)
    (h : st.overloads.Nodup) :
    (run_jit_func env st args).st.overloads.Nodup := by
  rw [run_jit_st]; exact superCall_nodup env st args h

theorem resolve_of_mem {sigs : List Sig} {s : Sig} (h : s ∈ sigs) :
    resolve_overload sigs s = true := by
  simp [resolve_overload, h]

theorem superCall_of_resolve (env : Env) (st : St) (args : List PyVal)
    (h : resolve_overload st.overloads (sigOf args) = true) :
    superCall env st args = ⟨st, [], .ok (env.jitResult args)⟩ := by
  unfold superCall; simp [h]

theorem run_jit_of_resolve (env : Env) (st : St) (args : List PyVal)
    (h : resolve_overload st.overloads (sigOf args) = true) :
    run_jit_func env st args =
      ⟨st, [Ev.startEvent jitEventKind, Ev.endEvent jitEventKind],
       .ok (env.jitResult args)⟩ := by
  unfold run_jit_func
  rw [superCall_of_resolve env st args h]
  rfl

theorem dispatcherCall_mono (env : Env) (st : St) (args : List PyVal) (k : Bool)
    {s : Sig} (h : s ∈ st.overloads) :
    s ∈ (dispatcherCall env st args k).st.overloads := by
  cases k with
  | true => exact h
  | false =>
    by_cases h1 : resolve_overload st.overloads (sigOf args) = true
    · simpa [dispatcherCall, function_in_overload, h1] using
        run_jit_mono env st args h
    · by_cases h2 : sigOf args ∈ st.diskCache
      · simp only [dispatcherCall, function_in_overload, function_in_cache, h1,
          h2, Bool.false_eq_true, if_false, if_true, reduceIte]
        exact run_jit_mono env _ args (mem_addOverload _ _ h)
      · cases hp : env.use_jit args with
        | jit =>
          simp only [dispatcherCall, function_in_overload, function_in_cache,
            h1, h2, hp, Bool.false_eq_true, if_false, reduceIte]
          cases hr : (superCall env { st with canCompile := true } args).result with
          | error e =>
            simp only [run_jit_func, hr]
            exact superCall_mono env _ args h
          | ok v =>
            simp only [run_jit_func, hr]
            split
            · exact superCall_mono env _ args h
            · exact run_jit_mono env _ args (superCall_mono env _ args h)
        | interpreter =>
          simp [dispatcherCall, function_in_overload, function_in_cache, h1,
            h2, hp, h]
        | raiseException =>
          simp [dispatcherCall, function_in_overload, function_in_cache, h1,
            h2, hp, h]
        | other v =>
          simp [dispatcherCall, function_in_overload, function_in_cache, h1,
            h2, hp, h]

theorem dispatcherCall_nodup (env : Env) (st : St) (args : List PyVal)
    (k : Bool) (h : st.overloads.Nodup) :
    (dispatcherCall env st args k).st.overloads.Nodup := by
  cases k with
  | true => exact h
  | false =>
    by_cases h1 : resolve_overload st.overloads (sigOf args) = true
    · simpa [dispatcherCall, function_in_overload, h1] using
        run_jit_nodup env st args h
    · by_cases h2 : sigOf args ∈ st.diskCache
      · simp only [dispatcherCall, function_in_overload, function_in_cache, h1,
          h2, Bool.false_eq_true, if_false, if_true, reduceIte]
        exact run_jit_nodup env _ args (addOverload_nodup _ h)
      · cases hp : env.use_jit args with
        | jit =>
          simp only [dispatcherCall, function_in_overload, function_in_cache,
            h1, h2, hp, Bool.false_eq_true, if_false, reduceIte]
          cases hr : (superCall env { st with canCompile := true } args).result with
          | error e =>
            simp only [run_jit_func, hr]
            exact superCall_nodup env _ args h
          | ok v =>
            simp only [run_jit_func, hr]
            split
            · exact superCall_nodup env _ args h
            · exact run_jit_nodup env _ args (superCall_nodup env _ args h)
        | interpreter =>
          simp [dispatcherCall, function_in_overload, function_in_cache, h1,
            h2, hp, h]
        | raiseException =>
          simp [dispatcherCall, function_in_overload, function_in_cache, h1,
            h2, hp, h]
        | other v =>
          simp [dispatcherCall, function_in_overload, function_in_cache, h1,
            h2, hp, h]

theorem runCalls_nodup (env : Env) (calls : List (List PyVal)) (st : St)
    (h : st.overloads.Nodup) :
    ((runCalls env st calls).1).overloads.Nodup := by
  induction calls generalizing st with
  | nil => exact h
  | cons args rest ih =>
    exact ih _ (dispatcherCall_nodup env st args false h)

theorem runCalls_mono (env : Env) (calls : List (List PyVal)) (st : St)
    {s : Sig} (h : s ∈ st.overloads) :
    s ∈ ((runCalls env st calls).1).overloads := by
  induction calls generalizing st with
  | nil => exact h
  | cons args rest ih =>
    exact ih _ (dispatcherCall_mono env st args false h)

theorem st_update_canCompile_self (s : St) (h : s.canCompile = true) :
    { s with canCompile := true } = s := by
  cases s; simp_all

theorem superCall_ok_mem (env : Env) (st : St) (args : List PyVal) (v : PyVal)
    (hr : (superCall env st args).result = .ok v) :
    resolve_overload (superCall env st args).st.overloads (sigOf args) = true := by
  unfold superCall at hr ⊢
  by_cases h1 : resolve_overload st.overloads (sigOf args) = true <;>
    by_cases h2 : sigOf args ∈ st.diskCache <;>
    by_cases h3 : env.compileOk (sigOf args) = true <;>
    by_cases h4 : st.canCompile = true <;>
    simp_all [resolve_of_mem, mem_addOverload_self]

theorem call_cases (env : Env) (st : St) (args : List PyVal)
    (P : CallRes → Prop)
    (case_resolve :
      resolve_overload st.overloads (sigOf args) = true →
      P ⟨st, [Ev.overloadCheck (sigOf args), Ev.startEvent jitEventKind,
              Ev.endEvent jitEventKind], .ok (env.jitResult args)⟩)
    (case_cache :
      resolve_overload st.overloads (sigOf args) = false →
      sigOf args ∈ st.diskCache →
      P ⟨{ st with cacheHits := bumpHit st.cacheHits (sigOf args),
                   overloads := addOverload st.overloads (sigOf args) },
         [Ev.overloadCheck (sigOf args), Ev.cacheLookup (sigOf args),
          Ev.startEvent jitEventKind, Ev.endEvent jitEventKind],
         .ok (env.jitResult args)⟩)
    (case_jit_err :
      resolve_overload st.overloads (sigOf args) = false →
      sigOf args ∉ st.diskCache →
      env.use_jit args = .jit →
      ∀ e, (superCall env { st with canCompile := true } args).result = .error e →
      P ⟨(superCall env { st with canCompile := true } args).st,
         Ev.overloadCheck (sigOf args) :: Ev.cacheLookup (sigOf args) ::
           Ev.policyInvoked :: Ev.startEvent jitEventKind ::
           (superCall env { st with canCompile := true } args).trace,
         .error e⟩)
    (case_jit_gateOff :
      resolve_overload st.overloads (sigOf args) = false →
      sigOf args ∉ st.diskCache →
      env.use_jit args = .jit →
      st.canCompile = false →
      ∀ v, (superCall env { st with canCompile := true } args).result = .ok v →
      P ⟨{ (superCall env { st with canCompile := true } args).st with
             canCompile := false },
         Ev.overloadCheck (sigOf args) :: Ev.cacheLookup (sigOf args) ::
           Ev.policyInvoked :: Ev.startEvent jitEventKind ::
           ((superCall env { st with canCompile := true } args).trace ++
             [Ev.endEvent jitEventKind]),
         .error (.noMatchingDefinition (sigOf args)
           (superCall env { st with canCompile := true } args).st.overloads)⟩)
    (case_jit_ok :
      resolve_overload st.overloads (sigOf args) = false →
      sigOf args ∉ st.diskCache →
      env.use_jit args = .jit →
      st.canCompile = true →
      ∀ v, (superCall env { st with canCompile := true } args).result = .ok v →
      P ⟨(superCall env { st with canCompile := true } args).st,
         Ev.overloadCheck (sigOf args) :: Ev.cacheLookup (sigOf args) ::
           Ev.policyInvoked :: Ev.startEvent jitEventKind ::
           ((superCall env { st with canCompile := true } args).trace ++
             [Ev.endEvent jitEventKind, Ev.startEvent jitEventKind,
              Ev.endEvent jitEventKind]),
         .ok (env.jitResult args)⟩)
    (case_interp :
      resolve_overload st.overloads (sigOf args) = false →
      sigOf args ∉ st.diskCache →
      env.use_jit args = .interpreter →
      P ⟨st, Ev.overloadCheck (sigOf args) :: Ev.cacheLookup (sigOf args) ::
               Ev.policyInvoked :: Ev.startEvent interpreterEventKind ::
               (emit_fallback_warning env args ++
                 (if exOk (env.pyFunc args) then
                   [Ev.endEvent interpreterEventKind] else [])),
             env.pyFunc args⟩)
    (case_reject :
      resolve_overload st.overloads (sigOf args) = false →
      sigOf args ∉ st.diskCache →
      env.use_jit args = .raiseException →
      P ⟨st, [Ev.overloadCheck (sigOf args), Ev.cacheLookup (sigOf args),
              Ev.policyInvoked],
         .error (.noMatchingDefinition (sigOf args) st.overloads)⟩)
    (case_other :
      resolve_overload st.overloads (sigOf args) = false →
      sigOf args ∉ st.diskCache →
      ∀ v, env.use_jit args = .other v →
      P ⟨st, [Ev.overloadCheck (sigOf args), Ev.cacheLookup (sigOf args),
              Ev.policyInvoked],
         .error (.invalidUseJitReturn (invalidUseJitMsg v))⟩) :
    P (dispatcherCall env st args false) := by
  by_cases h1 : resolve_overload st.overloads (sigOf args) = true
  · have hout : dispatcherCall env st args false =
        ⟨st, [Ev.overloadCheck (sigOf args), Ev.startEvent jitEventKind,
              Ev.endEvent jitEventKind], .ok (env.jitResult args)⟩ := by
      simp [dispatcherCall, function_in_overload, h1,
        run_jit_of_resolve env st args h1]
    rw [hout]; exact case_resolve h1
  · rw [Bool.not_eq_true] at h1
    by_cases h2 : sigOf args ∈ st.diskCache
    · have hres2 : resolve_overload
          (addOverload st.overloads (sigOf args)) (sigOf args) = true :=
        resolve_of_mem (mem_addOverload_self _ _)
      have hout : dispatcherCall env st args false =
          ⟨{ st with cacheHits := bumpHit st.cacheHits (sigOf args),
                     overloads := addOverload st.overloads (sigOf args) },
           [Ev.overloadCheck (sigOf args), Ev.cacheLookup (sigOf args),
            Ev.startEvent jitEventKind, Ev.endEvent jitEventKind],
           .ok (env.jitResult args)⟩ := by
        simp only [dispatcherCall, function_in_overload, function_in_cache, h1,
          h2, Bool.false_eq_true, if_false, if_true, reduceIte]
        rw [run_jit_of_resolve env _ args hres2]
        simp
      rw [hout]; exact case_cache h1 h2
    · cases hp : env.use_jit args with
      | jit =>
        cases hr : (superCall env { st with canCompile := true } args).result with
        | error e =>
          have hc1 : run_jit_func env { st with canCompile := true } args =
              ⟨(superCall env { st with canCompile := true } args).st,
               Ev.startEvent jitEventKind ::
                 (superCall env { st with canCompile := true } args).trace,
               .error e⟩ := by
            simp [run_jit_func, hr]
          have hout : dispatcherCall env st args false =
              ⟨(superCall env { st with canCompile := true } args).st,
               Ev.overloadCheck (sigOf args) :: Ev.cacheLookup (sigOf args) ::
                 Ev.policyInvoked :: Ev.startEvent jitEventKind ::
                 (superCall env { st with canCompile := true } args).trace,
               .error e⟩ := by
            simp only [dispatcherCall, function_in_overload, function_in_cache,
              h1, h2, hp, Bool.false_eq_true, if_false, reduceIte, hc1]
            simp
          rw [hout]; exact case_jit_err h1 h2 hp e hr
        | ok v =>
          have hc1 : run_jit_func env { st with canCompile := true } args =
              ⟨(superCall env { st with canCompile := true } args).st,
               Ev.startEvent jitEventKind ::
                 ((superCall env { st with canCompile := true } args).trace ++
                   [Ev.endEvent jitEventKind]),
               .ok v⟩ := by
            simp [run_jit_func, hr]
          have hmem : resolve_overload
              (superCall env { st with canCompile := true } args).st.overloads
              (sigOf args) = true :=
            superCall_ok_mem env _ args v hr
          by_cases hcc : st.canCompile = true
          · have hrestore : { (superCall env
                { st with canCompile := true } args).st with
                canCompile := st.canCompile } =
                (superCall env { st with canCompile := true } args).st := by
              rw [hcc]
              exact st_update_canCompile_self _
                (superCall_canCompile env _ args)
            have hout : dispatcherCall env st args false =
                ⟨(superCall env { st with canCompile := true } args).st,
                 Ev.overloadCheck (sigOf args) :: Ev.cacheLookup (sigOf args) ::
                   Ev.policyInvoked :: Ev.startEvent jitEventKind ::
                   ((superCall env { st with canCompile := true } args).trace ++
                     [Ev.endEvent jitEventKind, Ev.startEvent jitEventKind,
                      Ev.endEvent jitEventKind]),
                 .ok (env.jitResult args)⟩ := by
              simp only [dispatcherCall, function_in_overload, function_in_cache,
                h1, h2, hp, Bool.false_eq_true, if_false, reduceIte, hc1]
              rw [hrestore]
              have hgate : can_compile
                  (superCall env { st with canCompile := true } args).st = true :=
                superCall_canCompile env _ args
              rw [hgate]
              simp only [Bool.not_true, Bool.false_eq_true, if_false, reduceIte]
              rw [run_jit_of_resolve env _ args hmem]
              simp
            rw [hout]; exact case_jit_ok h1 h2 hp hcc v hr
          · rw [Bool.not_eq_true] at hcc
            have hout : dispatcherCall env st args false =
                ⟨{ (superCall env { st with canCompile := true } args).st with
                     canCompile := false },
                 Ev.overloadCheck (sigOf args) :: Ev.cacheLookup (sigOf args) ::
                   Ev.policyInvoked :: Ev.startEvent jitEventKind ::
                   ((superCall env { st with canCompile := true } args).trace ++
                     [Ev.endEvent jitEventKind]),
                 .error (.noMatchingDefinition (sigOf args)
                   (superCall env { st with canCompile := true } args).st.overloads)⟩ := by
              simp only [dispatcherCall, function_in_overload, function_in_cache,
                h1, h2, hp, Bool.false_eq_true, if_false, reduceIte, hc1]
              simp only [can_compile, hcc, Bool.not_false, if_true, reduceIte]
              simp
            rw [hout]; exact case_jit_gateOff h1 h2 hp hcc v hr
      | interpreter =>
        have hout : dispatcherCall env st args false =
            ⟨st, Ev.overloadCheck (sigOf args) :: Ev.cacheLookup (sigOf args) ::
               Ev.policyInvoked :: Ev.startEvent interpreterEventKind ::
               (emit_fallback_warning env args ++
                 (if exOk (env.pyFunc args) then
                   [Ev.endEvent interpreterEventKind] else [])),
             env.pyFunc args⟩ := by
          simp only [dispatcherCall, function_in_overload, function_in_cache,
            h1, h2, hp, Bool.false_eq_true, if_false, reduceIte]
          rw [fallback_trace, fallback_result]
          simp
        rw [hout]; exact case_interp h1 h2 hp
      | raiseException =>
        have hout : dispatcherCall env st args false =
            ⟨st, [Ev.overloadCheck (sigOf args), Ev.cacheLookup (sigOf args),
                  Ev.policyInvoked],
             .error (.noMatchingDefinition (sigOf args) st.overloads)⟩ := by
          simp [dispatcherCall, function_in_overload, function_in_cache, h1,
            h2, hp]
        rw [hout]; exact case_reject h1 h2 hp
      | other v =>
        have hout : dispatcherCall env st args false =
            ⟨st, [Ev.overloadCheck (sigOf args), Ev.cacheLookup (sigOf args),
                  Ev.policyInvoked],
             .error (.invalidUseJitReturn (invalidUseJitMsg v))⟩ := by
          simp [dispatcherCall, function_in_overload, function_in_cache, h1,
            h2, hp]
        rw [hout]; exact case_other h1 h2 v hp

/-! ### Helper lemmas for the claim theorems -/

/-- A call whose signature is already in the overload table is served by
the overload-resolution check alone: unchanged state, a single jit
start/end pair, the existing specialization's result. -/
theorem call_of_mem (env : Env) (st : St) (args : List PyVal)
    (hm : sigOf args ∈ st.overloads) :
    dispatcherCall env st args false =
      ⟨st, [Ev.overloadCheck (sigOf args), Ev.startEvent jitEventKind,
            Ev.endEvent jitEventKind],
       .ok (env.jitResult args)⟩ := by
  have hres := resolve_of_mem hm
  simp [dispatcherCall, function_in_overload, hres,
    run_jit_of_resolve env st args hres]

/-- The two event kind strings differ. -/
theorem jit_ne_interp : jitEventKind ≠ interpreterEventKind := by decide

/-- The two event kind strings differ (symmetric form). -/
theorem interp_ne_jit : interpreterEventKind ≠ jitEventKind := by decide

/-- Per call: with `warn_on_fallback` set, the number of warnings in the
trace equals the number of interpreter-kind start events; otherwise it is
zero. -/
theorem call_warn_count (env : Env) (st : St) (args : List PyVal) :
    countWarn (dispatcherCall env st args false).trace =
      (if env.warn_on_fallback = true then
        countEv (Ev.startEvent interpreterEventKind)
          (dispatcherCall env st args false).trace
       else 0) := by
  refine call_cases env st args (fun c =>
    countWarn c.trace =
      (if env.warn_on_fallback = true then
        countEv (Ev.startEvent interpreterEventKind) c.trace else 0))
    ?_ ?_ ?_ ?_ ?_ ?_ ?_ ?_
  · intro _
    cases hw : env.warn_on_fallback <;>
      simp [countWarn, countEv, isWarnEv, List.countP_cons, List.count_cons,
        jit_ne_interp, interp_ne_jit]
  · intro _ _
    cases hw : env.warn_on_fallback <;>
      simp [countWarn, countEv, isWarnEv, List.countP_cons, List.count_cons,
        jit_ne_interp, interp_ne_jit]
  · intro _ _ _ e _
    rcases superCall_trace_cases env { st with canCompile := true } args
      with hsc | hsc <;>
      cases hw : env.warn_on_fallback <;>
      simp [hsc, countWarn, countEv, isWarnEv, List.countP_cons,
        List.countP_append, List.count_cons, List.count_append,
        jit_ne_interp, interp_ne_jit]
  · intro _ _ _ _ v _
    rcases superCall_trace_cases env { st with canCompile := true } args
      with hsc | hsc <;>
      cases hw : env.warn_on_fallback <;>
      simp [hsc, countWarn, countEv, isWarnEv, List.countP_cons,
        List.countP_append, List.count_cons, List.count_append,
        jit_ne_interp, interp_ne_jit]
  · intro _ _ _ _ v _
    rcases superCall_trace_cases env { st with canCompile := true } args
      with hsc | hsc <;>
      cases hw : env.warn_on_fallback <;>
      simp [hsc, countWarn, countEv, isWarnEv, List.countP_cons,
        List.countP_append, List.count_cons, List.count_append,
        jit_ne_interp, interp_ne_jit]
  · intro _ _ _
    cases hw : env.warn_on_fallback <;>
      cases hok : exOk (env.pyFunc args) <;>
      simp [emit_fallback_warning, hw, hok, countWarn, countEv, isWarnEv,
        List.countP_cons, List.countP_append, List.count_cons,
        List.count_append, jit_ne_interp, interp_ne_jit]
  · intro _ _ _
    cases hw : env.warn_on_fallback <;>
      simp [countWarn, countEv, isWarnEv, List.countP_cons, List.count_cons]
  · intro _ _ v _
    cases hw : env.warn_on_fallback <;>
      simp [countWarn, countEv, isWarnEv, List.countP_cons, List.count_cons]

/-- The warning-count relation extended over a whole call sequence. -/
theorem runCalls_warn_count (env : Env) (calls : List (List PyVal)) (st : St) :
    countWarn (runCalls env st calls).2 =
      (if env.warn_on_fallback = true then
        countEv (Ev.startEvent interpreterEventKind) (runCalls env st calls).2
       else 0) := by
  induction calls generalizing st with
  | nil =>
    cases hw : env.warn_on_fallback <;> simp [runCalls, countWarn, countEv]
  | cons args rest ih =>
    have h1 := call_warn_count env st args
    have h2 := ih (dispatcherCall env st args false).st
    cases hw : env.warn_on_fallback <;>
      rw [hw] at h1 h2 <;>
      simp only [runCalls, countWarn, countEv, List.countP_append,
        Bool.false_eq_true, if_true, if_false, reduceIte] at h1 h2 ⊢ <;>
      omega

/-- Every warning in a call's trace is the fallback warning built from the
function name and the call's inferred argument shapes. -/
theorem call_warn_named (env : Env) (st : St) (args : List PyVal) :
    ∀ e ∈ (dispatcherCall env st args false).trace, isWarnEv e = true →
      e = Ev.warn (fallbackMsg env.funcName (sigOf args)) := by
  refine call_cases env st args (fun c =>
    ∀ e ∈ c.trace, isWarnEv e = true →
      e = Ev.warn (fallbackMsg env.funcName (sigOf args)))
    ?_ ?_ ?_ ?_ ?_ ?_ ?_ ?_
  · intro _ e he hw
    simp only [List.mem_cons, List.mem_singleton, List.not_mem_nil,
      or_false] at he
    rcases he with rfl | rfl | rfl <;> simp [isWarnEv] at hw
  · intro _ _ e he hw
    simp only [List.mem_cons, List.mem_singleton, List.not_mem_nil,
      or_false] at he
    rcases he with rfl | rfl | rfl | rfl <;> simp [isWarnEv] at hw
  · intro _ _ _ x _ e he hw
    rcases superCall_trace_cases env { st with canCompile := true } args
      with hsc | hsc <;>
      rw [hsc] at he <;>
      simp only [List.mem_cons, List.mem_singleton, List.not_mem_nil,
        or_false] at he
    · rcases he with rfl | rfl | rfl | rfl <;> simp [isWarnEv] at hw
    · rcases he with rfl | rfl | rfl | rfl | rfl <;> simp [isWarnEv] at hw
  · intro _ _ _ _ x _ e he hw
    rcases superCall_trace_cases env { st with canCompile := true } args
      with hsc | hsc <;>
      rw [hsc] at he <;>
      simp only [List.mem_cons, List.mem_append, List.mem_singleton,
        List.not_mem_nil, List.nil_append, false_or, or_false] at he
    · rcases he with rfl | rfl | rfl | rfl | rfl <;> simp [isWarnEv] at hw
    · rcases he with rfl | rfl | rfl | rfl | rfl | rfl <;>
        simp [isWarnEv] at hw
  · intro _ _ _ _ x _ e he hw
    rcases superCall_trace_cases env { st with canCompile := true } args
      with hsc | hsc <;>
      rw [hsc] at he <;>
      simp only [List.mem_cons, List.mem_append, List.mem_singleton,
        List.not_mem_nil, List.nil_append, false_or, or_false] at he
    · rcases he with rfl | rfl | rfl | rfl | rfl | rfl | rfl <;>
        simp [isWarnEv] at hw
    · rcases he with rfl | rfl | rfl | rfl | rfl | rfl | rfl | rfl <;>
        simp [isWarnEv] at hw
  · intro _ _ _ e he hw
    cases hw2 : env.warn_on_fallback <;>
      cases hok : exOk (env.pyFunc args) <;>
      simp only [emit_fallback_warning, hw2, hok, if_true, if_false,
        reduceIte, Bool.false_eq_true, List.mem_cons, List.mem_append,
        List.mem_singleton, List.not_mem_nil, List.nil_append, false_or,
        or_false] at he
    · rcases he with rfl | rfl | rfl | rfl <;> simp [isWarnEv] at hw
    · rcases he with rfl | rfl | rfl | rfl | rfl <;> simp [isWarnEv] at hw
    · rcases he with rfl | rfl | rfl | rfl | rfl <;>
        first | rfl | simp [isWarnEv] at hw
    · rcases he with rfl | rfl | rfl | rfl | rfl | rfl <;>
        first | rfl | simp [isWarnEv] at hw
  · intro _ _ _ e he hw
    simp only [List.mem_cons, List.mem_singleton, List.not_mem_nil,
      or_false] at he
    rcases he with rfl | rfl | rfl <;> simp [isWarnEv] at hw
  · intro _ _ v _ e he hw
    simp only [List.mem_cons, List.mem_singleton, List.not_mem_nil,
      or_false] at he
    rcases he with rfl | rfl | rfl <;> simp [isWarnEv] at hw

/-! ### The claims -/

/-- C1: after any finite sequence of calls the specialization store keeps
at most one compiled specialization per signature (the overload table,
started duplicate-free, stays duplicate-free), and no fresh compilation is
attempted on a call whose signature already resolves against the in-memory
overloads or is present in the persistent cache. -/
theorem C1_at_most_one_specialization :
    (∀ (env : Env) (st : St) (calls : List (List PyVal)),
      st.overloads.Nodup → ((runCalls env st calls).1).overloads.Nodup) ∧
    (∀ (env : Env) (st : St) (args : List PyVal),
      (resolve_overload st.overloads (sigOf args) = true ∨
        sigOf args ∈ st.diskCache) →
      countCompFresh (dispatcherCall env st args false).trace = 0) := by
  constructor
  · intro env st calls h
    exact runCalls_nodup env calls st h
  · intro env st args h
    refine call_cases env st args
      (fun c => countCompFresh c.trace = 0) ?_ ?_ ?_ ?_ ?_ ?_ ?_ ?_
    · intro _; simp [countCompFresh, isCompFreshEv, List.countP_cons]
    · intro _ _; simp [countCompFresh, isCompFreshEv, List.countP_cons]
    · intro h1 h2 _ _ _
      rcases h with hx | hx
      · rw [hx] at h1; cases h1
      · exact absurd hx h2
    · intro h1 h2 _ _ _ _
      rcases h with hx | hx
      · rw [hx] at h1; cases h1
      · exact absurd hx h2
    · intro h1 h2 _ _ _ _
      rcases h with hx | hx
      · rw [hx] at h1; cases h1
      · exact absurd hx h2
    · intro h1 h2 _
      rcases h with hx | hx
      · rw [hx] at h1; cases h1
      · exact absurd hx h2
    · intro h1 h2 _
      rcases h with hx | hx
      · rw [hx] at h1; cases h1
      · exact absurd hx h2
    · intro h1 h2 _ _
      rcases h with hx | hx
      · rw [hx] at h1; cases h1
      · exact absurd hx h2

/-- C1 witness at a concrete environment and call sequence. -/
theorem C1_witness :
    ((runCalls alwaysJitEnv freshSt
        [[PyVal.vint 3], [PyVal.vint 4], [PyVal.vstr "s"]]).1).overloads.Nodup ∧
    countCompFresh
      (dispatcherCall alwaysJitEnv bothSt [PyVal.vint 5] false).trace = 0 :=
  ⟨C1_at_most_one_specialization.1 alwaysJitEnv freshSt _ (by decide),
   C1_at_most_one_specialization.2 alwaysJitEnv bothSt [PyVal.vint 5]
     (Or.inl (by decide))⟩

/-- C2 counterexample: a call on which the policy returns `Action.JIT`
and the compilation-and-execution request raises; the `_can_compile` gate
was `false` before the call and is left `true` after it, so it is not
restored on the exception path as the claim states. -/
theorem C2_counterexample :
    failCompileEnv.use_jit [PyVal.vint 3] = .jit ∧
    gateOffSt.canCompile = false ∧
    (dispatcherCall failCompileEnv gateOffSt [PyVal.vint 3] false).result =
      .error .compilationFailure ∧
    (dispatcherCall failCompileEnv gateOffSt [PyVal.vint 3] false).st.canCompile
      = true := by
  refine ⟨rfl, rfl, rfl, rfl⟩

/-- C2 amended: on the `Action.JIT` path the gate is set to true for the
request; when the request returns normally the gate is restored to its
prior value before the call returns, but when the request raises, the
exception propagates with the gate left set to true. -/
theorem C2_amended (env : Env) (st : St) (args : List PyVal)
    (h1 : resolve_overload st.overloads (sigOf args) = false)
    (h2 : sigOf args ∉ st.diskCache)
    (h3 : env.use_jit args = .jit) :
    (exOk (superCall env { st with canCompile := true } args).result = true →
      (dispatcherCall env st args false).st.canCompile = st.canCompile) ∧
    (exOk (superCall env { st with canCompile := true } args).result = false →
      (dispatcherCall env st args false).st.canCompile = true ∧
      exOk (dispatcherCall env st args false).result = false) := by
  refine call_cases env st args (fun c =>
    (exOk (superCall env { st with canCompile := true } args).result = true →
      c.st.canCompile = st.canCompile) ∧
    (exOk (superCall env { st with canCompile := true } args).result = false →
      c.st.canCompile = true ∧ exOk c.result = false))
    ?_ ?_ ?_ ?_ ?_ ?_ ?_ ?_
  · intro hx; rw [hx] at h1; cases h1
  · intro _ hmem; exact absurd hmem h2
  · intro _ _ _ e hr
    constructor
    · intro hok; rw [hr] at hok; simp [exOk] at hok
    · intro _
      refine ⟨?_, by simp [exOk]⟩
      rw [superCall_canCompile]
  · intro _ _ _ hcc v hr
    constructor
    · intro _; simp [hcc]
    · intro hbad; rw [hr] at hbad; simp [exOk] at hbad
  · intro _ _ _ hcc v hr
    constructor
    · intro _
      rw [superCall_canCompile, hcc]
    · intro hbad; rw [hr] at hbad; simp [exOk] at hbad
  · intro _ _ hpi; rw [h3] at hpi; cases hpi
  · intro _ _ hpi; rw [h3] at hpi; cases hpi
  · intro _ _ v hpi; rw [h3] at hpi; cases hpi

/-- C2 amended, instantiated: gate restored on a successful compile from a
fresh state, and left engaged after a failing compile from a gate-off
state. -/
theorem C2_amended_witness :
    (dispatcherCall alwaysJitEnv freshSt [PyVal.vint 3] false).st.canCompile =
      freshSt.canCompile ∧
    (dispatcherCall failCompileEnv gateOffSt [PyVal.vint 3] false).st.canCompile
      = true ∧
    exOk (dispatcherCall failCompileEnv gateOffSt [PyVal.vint 3] false).result
      = false :=
  ⟨(C2_amended alwaysJitEnv freshSt [PyVal.vint 3] (by decide) (by decide)
      (by decide)).1 (by decide),
   (C2_amended failCompileEnv gateOffSt [PyVal.vint 3] (by decide) (by decide)
      (by decide)).2 (by decide)⟩

/-- C3 counterexample: a dispatch through the `Action.JIT` policy path
emits two jit start events (the jit runner is invoked twice), and a
dispatch whose backend raises emits a start event with no matching end
event — both contradicting "exactly one start ... end emitted even when
the backend raises". -/
theorem C3_counterexample :
    countEv (Ev.startEvent jitEventKind)
      (dispatcherCall alwaysJitEnv freshSt [PyVal.vint 3] false).trace = 2 ∧
    exOk (dispatcherCall alwaysJitEnv freshSt [PyVal.vint 3] false).result =
      true ∧
    countEv (Ev.startEvent jitEventKind)
      (dispatcherCall failCompileEnv freshSt [PyVal.vint 3] false).trace = 1 ∧
    countEv (Ev.endEvent jitEventKind)
      (dispatcherCall failCompileEnv freshSt [PyVal.vint 3] false).trace = 0 ∧
    exOk (dispatcherCall failCompileEnv freshSt [PyVal.vint 3] false).result =
      false := by
  refine ⟨by decide, rfl, by decide, by decide, rfl⟩

/-- C3 amended: in every dispatch trace, end events never outnumber start
events of the same kind, and when the dispatch returns without an
exception the counts agree exactly; a backend exception leaves the failing
run's start event without a matching end, and the `Action.JIT` policy path
runs the jit backend twice, emitting a start/end pair per run. -/
theorem C3_amended (env : Env) (st : St) (args : List PyVal) (k : Bool) :
    countEv (Ev.endEvent jitEventKind) (dispatcherCall env st args k).trace ≤
      countEv (Ev.startEvent jitEventKind)
        (dispatcherCall env st args k).trace ∧
    countEv (Ev.endEvent interpreterEventKind)
        (dispatcherCall env st args k).trace ≤
      countEv (Ev.startEvent interpreterEventKind)
        (dispatcherCall env st args k).trace ∧
    (exOk (dispatcherCall env st args k).result = true →
      countEv (Ev.endEvent jitEventKind) (dispatcherCall env st args k).trace =
        countEv (Ev.startEvent jitEventKind)
          (dispatcherCall env st args k).trace ∧
      countEv (Ev.endEvent interpreterEventKind)
          (dispatcherCall env st args k).trace =
        countEv (Ev.startEvent interpreterEventKind)
          (dispatcherCall env st args k).trace) := by
  cases k with
  | true =>
    exact ⟨Nat.le_refl 0, Nat.le_refl 0, fun h => Bool.noConfusion h⟩
  | false =>
    refine call_cases env st args (fun c =>
      countEv (Ev.endEvent jitEventKind) c.trace ≤
        countEv (Ev.startEvent jitEventKind) c.trace ∧
      countEv (Ev.endEvent interpreterEventKind) c.trace ≤
        countEv (Ev.startEvent interpreterEventKind) c.trace ∧
      (exOk c.result = true →
        countEv (Ev.endEvent jitEventKind) c.trace =
          countEv (Ev.startEvent jitEventKind) c.trace ∧
        countEv (Ev.endEvent interpreterEventKind) c.trace =
          countEv (Ev.startEvent interpreterEventKind) c.trace))
      ?_ ?_ ?_ ?_ ?_ ?_ ?_ ?_
    · intro _
      refine ⟨?_, ?_, fun _ => ⟨?_, ?_⟩⟩ <;>
        simp [countEv, List.count_cons, jit_ne_interp, interp_ne_jit]
    · intro _ _
      refine ⟨?_, ?_, fun _ => ⟨?_, ?_⟩⟩ <;>
        simp [countEv, List.count_cons, jit_ne_interp, interp_ne_jit]
    · intro _ _ _ e _
      rcases superCall_trace_cases env { st with canCompile := true } args
        with hsc | hsc <;>
        refine ⟨?_, ?_, fun hx => Bool.noConfusion hx⟩ <;>
        simp [hsc, countEv, List.count_cons, jit_ne_interp, interp_ne_jit]
    · intro _ _ _ _ v _
      rcases superCall_trace_cases env { st with canCompile := true } args
        with hsc | hsc <;>
        refine ⟨?_, ?_, fun hx => Bool.noConfusion hx⟩ <;>
        simp [hsc, countEv, List.count_cons, List.count_append,
          jit_ne_interp, interp_ne_jit]
    · intro _ _ _ _ v _
      rcases superCall_trace_cases env { st with canCompile := true } args
        with hsc | hsc <;>
        refine ⟨?_, ?_, fun _ => ⟨?_, ?_⟩⟩ <;>
        simp [hsc, countEv, List.count_cons, List.count_append,
          jit_ne_interp, interp_ne_jit]
    · intro _ _ _
      cases hw : env.warn_on_fallback <;>
        cases hok : exOk (env.pyFunc args) <;>
        refine ⟨?_, ?_, fun hx => ?_⟩ <;>
        simp [emit_fallback_warning, hw, hok, countEv, List.count_cons,
          List.count_append, jit_ne_interp, interp_ne_jit] <;>
        simp [hok] at hx
    · intro _ _ _
      refine ⟨?_, ?_, fun hx => Bool.noConfusion hx⟩ <;>
        simp [countEv, List.count_cons, jit_ne_interp, interp_ne_jit]
    · intro _ _ v _
      refine ⟨?_, ?_, fun hx => Bool.noConfusion hx⟩ <;>
        simp [countEv, List.count_cons, jit_ne_interp, interp_ne_jit]

/-- C3 amended at concrete dispatches: balanced events on a successful
call, and no excess end events on a failing one. -/
theorem C3_amended_witness :
    countEv (Ev.endEvent jitEventKind)
        (dispatcherCall alwaysJitEnv freshSt [PyVal.vint 3] false).trace =
      countEv (Ev.startEvent jitEventKind)
        (dispatcherCall alwaysJitEnv freshSt [PyVal.vint 3] false).trace ∧
    countEv (Ev.endEvent jitEventKind)
        (dispatcherCall failCompileEnv freshSt [PyVal.vint 3] false).trace ≤
      countEv (Ev.startEvent jitEventKind)
        (dispatcherCall failCompileEnv freshSt [PyVal.vint 3] false).trace :=
  ⟨((C3_amended alwaysJitEnv freshSt [PyVal.vint 3] false).2.2 (by decide)).1,
   (C3_amended failCompileEnv freshSt [PyVal.vint 3] false).1⟩

/-- C4: once a call's shape signature is in the overload table after an
initial call, every later call with the same signature (after any
intervening calls) is answered by the exact-match fast path: unchanged
state, a single jit start/end pair, and neither the policy callable nor
the persistent-cache lookup is invoked. -/
theorem C4_repeat_fast_path (env : Env) (st0 : St) (args0 : List PyVal)
    (mid : List (List PyVal)) (args : List PyVal)
    (h : sigOf args ∈ (dispatcherCall env st0 args0 false).st.overloads) :
    dispatcherCall env
        ((runCalls env (dispatcherCall env st0 args0 false).st mid).1)
        args false =
      ⟨(runCalls env (dispatcherCall env st0 args0 false).st mid).1,
       [Ev.overloadCheck (sigOf args), Ev.startEvent jitEventKind,
        Ev.endEvent jitEventKind],
       .ok (env.jitResult args)⟩ ∧
    Ev.policyInvoked ∉ (dispatcherCall env
        ((runCalls env (dispatcherCall env st0 args0 false).st mid).1)
        args false).trace ∧
    countCacheLookup (dispatcherCall env
        ((runCalls env (dispatcherCall env st0 args0 false).st mid).1)
        args false).trace = 0 := by
  have hm : sigOf args ∈
      ((runCalls env (dispatcherCall env st0 args0 false).st mid).1).overloads :=
    runCalls_mono env mid _ h
  have heq := call_of_mem env _ args hm
  refine ⟨heq, ?_, ?_⟩ <;> rw [heq] <;>
    simp [countCacheLookup, isCacheLookupEv, List.countP_cons]

/-- C4 witness: f(3) compiles, then after an interposed string call, f(4)
takes the fast path. -/
theorem C4_repeat_fast_path_witness :
    dispatcherCall alwaysJitEnv
        ((runCalls alwaysJitEnv
          (dispatcherCall alwaysJitEnv freshSt [PyVal.vint 3] false).st
          [[PyVal.vstr "s"]]).1)
        [PyVal.vint 4] false =
      ⟨(runCalls alwaysJitEnv
          (dispatcherCall alwaysJitEnv freshSt [PyVal.vint 3] false).st
          [[PyVal.vstr "s"]]).1,
       [Ev.overloadCheck sigInt, Ev.startEvent jitEventKind,
        Ev.endEvent jitEventKind],
       .ok (PyVal.vint 0)⟩ :=
  (C4_repeat_fast_path alwaysJitEnv freshSt [PyVal.vint 3] [[PyVal.vstr "s"]]
    [PyVal.vint 4] (by decide)).1

/-- C5 counterexample: with an always-JIT policy, f(3) compiles and caches
the int signature, yet the second call f(4) in the same process leaves the
stored hit-count for that signature at 0, not 1 as the claim states. -/
theorem C5_counterexample :
    (dispatcherCall alwaysJitEnv freshSt [PyVal.vint 3] false).result =
      .ok (PyVal.vint 0) ∧
    sigInt ∈ (dispatcherCall alwaysJitEnv freshSt [PyVal.vint 3] false).st.overloads ∧
    getHits ((runCalls alwaysJitEnv freshSt
        [[PyVal.vint 3], [PyVal.vint 4]]).1).cacheHits sigInt = 0 ∧
    getHits ((runCalls alwaysJitEnv freshSt
        [[PyVal.vint 3], [PyVal.vint 4]]).1).cacheHits sigInt ≠ 1 := by
  refine ⟨rfl, by decide, rfl, by decide⟩

/-- C5 amended: in the two-call scenario the hit-count for the int
signature stays 0 (the second call is served by the in-memory exact
overload match, which does not touch the counter, and the policy is not
re-invoked); the hit-count reaches 1 only when the specialization is
loaded from the persistent cache into a dispatcher that lacks it in
memory, e.g. the first call of a new process with a warm disk cache. -/
theorem C5_amended :
    getHits ((runCalls alwaysJitEnv freshSt
        [[PyVal.vint 3], [PyVal.vint 4]]).1).cacheHits sigInt = 0 ∧
    countEv Ev.policyInvoked
      (runCalls alwaysJitEnv freshSt [[PyVal.vint 3], [PyVal.vint 4]]).2 = 1 ∧
    (dispatcherCall alwaysJitEnv
        (dispatcherCall alwaysJitEnv freshSt [PyVal.vint 3] false).st
        [PyVal.vint 4] false).trace =
      [Ev.overloadCheck sigInt, Ev.startEvent jitEventKind,
       Ev.endEvent jitEventKind] ∧
    getHits (dispatcherCall alwaysJitEnv warmSt
        [PyVal.vint 4] false).st.cacheHits sigInt = 1 := by
  refine ⟨rfl, by decide, by decide, rfl⟩

/-- C6 counterexample: a policy callable named "my_policy" returning the
unrecognized value "BadValue" makes the call fail with the invalid-return
TypeError whose message carries the offending value, but the name
"my_policy" of the violating callable appears nowhere in it. -/
theorem C6_counterexample :
    (dispatcherCall badPolicyEnv freshSt [PyVal.vstr "x"] false).result =
      .error (.invalidUseJitReturn (invalidUseJitMsg "BadValue")) ∧
    strContains (invalidUseJitMsg "BadValue") "BadValue" = true ∧
    badPolicyEnv.use_jit_name = "my_policy" ∧
    strContains (invalidUseJitMsg "BadValue") "my_policy" = false := by
  refine ⟨rfl, by decide, rfl, by decide⟩

/-- C6 amended: any unrecognized policy return value makes the call fail
with a TypeError whose message carries the offending value and the fixed
keyword name "use_jit" under which the callable was supplied (not the
callable's own name), and the call neither compiles nor evaluates: no
start event of either kind is emitted and the state is unchanged. -/
theorem C6_amended (env : Env) (st : St) (args : List PyVal) (v : String)
    (h1 : resolve_overload st.overloads (sigOf args) = false)
    (h2 : sigOf args ∉ st.diskCache)
    (h3 : env.use_jit args = .other v) :
    dispatcherCall env st args false =
      ⟨st, [.overloadCheck (sigOf args), .cacheLookup (sigOf args),
            .policyInvoked],
       .error (.invalidUseJitReturn (invalidUseJitMsg v))⟩ ∧
    invalidUseJitMsg v = invalidMsgPre ++ v ++ "\"" ∧
    strContains invalidMsgPre "use_jit" = true ∧
    (Err.invalidUseJitReturn (invalidUseJitMsg v)).isTypeError = true ∧
    countEv (Ev.startEvent jitEventKind)
      (dispatcherCall env st args false).trace = 0 ∧
    countEv (Ev.startEvent interpreterEventKind)
      (dispatcherCall env st args false).trace = 0 := by
  have heq : dispatcherCall env st args false =
      ⟨st, [.overloadCheck (sigOf args), .cacheLookup (sigOf args),
            .policyInvoked],
       .error (.invalidUseJitReturn (invalidUseJitMsg v))⟩ := by
    simp only [dispatcherCall, function_in_overload, function_in_cache, h1, h3,
      if_neg h2, Bool.false_eq_true, if_false, List.singleton_append,
      List.cons_append, List.nil_append]
  refine ⟨heq, rfl, by decide, rfl, ?_, ?_⟩ <;> rw [heq] <;>
    simp [countEv, List.countP_cons, beq_iff_eq]

/-- C6 amended at the concrete bad-policy configuration. -/
theorem C6_amended_witness :
    dispatcherCall badPolicyEnv freshSt [PyVal.vstr "x"] false =
      ⟨freshSt, [.overloadCheck [Shape.unicode], .cacheLookup [Shape.unicode],
                 .policyInvoked],
       .error (.invalidUseJitReturn (invalidUseJitMsg "BadValue"))⟩ :=
  (C6_amended badPolicyEnv freshSt [PyVal.vstr "x"] "BadValue" (by decide)
    (by decide) (by decide)).1

/-- C7: when the policy returns `Action.RAISE_EXCEPTION` for a novel
shape, the call raises the TypeError-class "no matching definition"
diagnostic, the state (and hence the specialization store) is unchanged,
and no start or end event of either kind is emitted. -/
theorem C7_reject_path (env : Env) (st : St) (args : List PyVal)
    (h1 : resolve_overload st.overloads (sigOf args) = false)
    (h2 : sigOf args ∉ st.diskCache)
    (h3 : env.use_jit args = .raiseException) :
    dispatcherCall env st args false =
      ⟨st, [.overloadCheck (sigOf args), .cacheLookup (sigOf args),
            .policyInvoked],
       .error (.noMatchingDefinition (sigOf args) st.overloads)⟩ ∧
    (Err.noMatchingDefinition (sigOf args) st.overloads).isTypeError = true ∧
    countEv (Ev.startEvent jitEventKind)
      (dispatcherCall env st args false).trace = 0 ∧
    countEv (Ev.startEvent interpreterEventKind)
      (dispatcherCall env st args false).trace = 0 ∧
    countEv (Ev.endEvent jitEventKind)
      (dispatcherCall env st args false).trace = 0 ∧
    countEv (Ev.endEvent interpreterEventKind)
      (dispatcherCall env st args false).trace = 0 := by
  have heq : dispatcherCall env st args false =
      ⟨st, [.overloadCheck (sigOf args), .cacheLookup (sigOf args),
            .policyInvoked],
       .error (.noMatchingDefinition (sigOf args) st.overloads)⟩ := by
    simp only [dispatcherCall, function_in_overload, function_in_cache, h1, h3,
      if_neg h2, Bool.false_eq_true, if_false, List.singleton_append,
      List.cons_append, List.nil_append]
  refine ⟨heq, rfl, ?_, ?_, ?_, ?_⟩ <;> rw [heq] <;>
    simp [countEv, List.countP_cons, beq_iff_eq]

/-- C7 witness at the concrete rejecting configuration. -/
theorem C7_reject_path_witness :
    dispatcherCall rejectEnv freshSt [PyVal.vstr "x"] false =
      ⟨freshSt, [.overloadCheck [Shape.unicode], .cacheLookup [Shape.unicode],
                 .policyInvoked],
       .error (.noMatchingDefinition [Shape.unicode] [])⟩ :=
  (C7_reject_path rejectEnv freshSt [PyVal.vstr "x"] (by decide) (by decide)
    (by decide)).1

/-- C8 counterexample: in a state where the call's signature has an exact
entry in the persistent cache (and in the overload table), the dispatcher
never performs the exact-signature cache lookup — no cacheLookup event
appears and the hit-count is not incremented — because the
overload-resolution check runs first, contradicting the claimed order. -/
theorem C8_counterexample :
    sigInt ∈ bothSt.diskCache ∧
    (dispatcherCall alwaysJitEnv bothSt [PyVal.vint 3] false).trace =
      [Ev.overloadCheck sigInt, Ev.startEvent jitEventKind,
       Ev.endEvent jitEventKind] ∧
    countCacheLookup
      (dispatcherCall alwaysJitEnv bothSt [PyVal.vint 3] false).trace = 0 ∧
    getHits (dispatcherCall alwaysJitEnv bothSt
        [PyVal.vint 3] false).st.cacheHits sigInt = 0 := by
  refine ⟨by decide, by decide, by decide, rfl⟩

/-- C8 amended: every call consults the compiler's overload resolution
over the in-memory signatures first (it is the head of the trace), and
performs the exact persistent-cache lookup only when overload resolution
reports no match; a hit on either check transitions directly to compiled
execution, bypassing policy evaluation. -/
theorem C8_amended (env : Env) (st : St) (args : List PyVal) :
    (dispatcherCall env st args false).trace.head? =
      some (Ev.overloadCheck (sigOf args)) ∧
    (resolve_overload st.overloads (sigOf args) = true →
      countCacheLookup (dispatcherCall env st args false).trace = 0 ∧
      Ev.policyInvoked ∉ (dispatcherCall env st args false).trace ∧
      Ev.startEvent jitEventKind ∈ (dispatcherCall env st args false).trace) ∧
    (resolve_overload st.overloads (sigOf args) = false →
      Ev.cacheLookup (sigOf args) ∈ (dispatcherCall env st args false).trace) ∧
    (resolve_overload st.overloads (sigOf args) = false →
      sigOf args ∈ st.diskCache →
      Ev.policyInvoked ∉ (dispatcherCall env st args false).trace ∧
      Ev.startEvent jitEventKind ∈ (dispatcherCall env st args false).trace) := by
  refine call_cases env st args (fun c =>
    c.trace.head? = some (Ev.overloadCheck (sigOf args)) ∧
    (resolve_overload st.overloads (sigOf args) = true →
      countCacheLookup c.trace = 0 ∧
      Ev.policyInvoked ∉ c.trace ∧
      Ev.startEvent jitEventKind ∈ c.trace) ∧
    (resolve_overload st.overloads (sigOf args) = false →
      Ev.cacheLookup (sigOf args) ∈ c.trace) ∧
    (resolve_overload st.overloads (sigOf args) = false →
      sigOf args ∈ st.diskCache →
      Ev.policyInvoked ∉ c.trace ∧
      Ev.startEvent jitEventKind ∈ c.trace)) ?_ ?_ ?_ ?_ ?_ ?_ ?_ ?_
  · intro h1
    refine ⟨rfl, fun _ => ?_, fun hx => ?_, fun hx _ => ?_⟩
    · simp [countCacheLookup, isCacheLookupEv, List.countP_cons]
    · rw [h1] at hx; cases hx
    · rw [h1] at hx; cases hx
  · intro h1 h2
    refine ⟨rfl, fun hx => ?_, fun _ => ?_, fun _ _ => ?_⟩
    · rw [hx] at h1; cases h1
    · simp
    · simp
  · intro h1 h2 hp e hr
    rcases superCall_trace_cases env { st with canCompile := true } args
      with hsc | hsc <;>
      refine ⟨by rw [hsc]; rfl, fun hx => ?_, fun _ => ?_, fun _ hm => ?_⟩ <;>
      first
        | (rw [hx] at h1; cases h1)
        | (exact absurd hm h2)
        | simp [hsc]
  · intro h1 h2 hp hcc v hr
    rcases superCall_trace_cases env { st with canCompile := true } args
      with hsc | hsc <;>
      refine ⟨by rw [hsc]; rfl, fun hx => ?_, fun _ => ?_, fun _ hm => ?_⟩ <;>
      first
        | (rw [hx] at h1; cases h1)
        | (exact absurd hm h2)
        | simp [hsc]
  · intro h1 h2 hp hcc v hr
    rcases superCall_trace_cases env { st with canCompile := true } args
      with hsc | hsc <;>
      refine ⟨by rw [hsc]; rfl, fun hx => ?_, fun _ => ?_, fun _ hm => ?_⟩ <;>
      first
        | (rw [hx] at h1; cases h1)
        | (exact absurd hm h2)
        | simp [hsc]
  · intro h1 h2 hp
    refine ⟨rfl, fun hx => ?_, fun _ => ?_, fun _ hm => ?_⟩
    · rw [hx] at h1; cases h1
    · simp
    · exact absurd hm h2
  · intro h1 h2 hp
    refine ⟨rfl, fun hx => ?_, fun _ => ?_, fun _ hm => ?_⟩
    · rw [hx] at h1; cases h1
    · simp
    · exact absurd hm h2
  · intro h1 h2 v hp
    refine ⟨rfl, fun hx => ?_, fun _ => ?_, fun _ hm => ?_⟩
    · rw [hx] at h1; cases h1
    · simp
    · exact absurd hm h2

/-- C8 amended at concrete states exercising both lookup outcomes. -/
theorem C8_amended_witness :
    (dispatcherCall alwaysJitEnv bothSt [PyVal.vint 3] false).trace.head? =
      some (Ev.overloadCheck sigInt) ∧
    countCacheLookup
      (dispatcherCall alwaysJitEnv bothSt [PyVal.vint 3] false).trace = 0 ∧
    Ev.cacheLookup sigInt ∈
      (dispatcherCall alwaysJitEnv warmSt [PyVal.vint 3] false).trace ∧
    Ev.policyInvoked ∉
      (dispatcherCall alwaysJitEnv warmSt [PyVal.vint 3] false).trace :=
  ⟨(C8_amended alwaysJitEnv bothSt [PyVal.vint 3]).1,
   ((C8_amended alwaysJitEnv bothSt [PyVal.vint 3]).2.1 (by decide)).1,
   (C8_amended alwaysJitEnv warmSt [PyVal.vint 3]).2.2.1 (by decide),
   ((C8_amended alwaysJitEnv warmSt [PyVal.vint 3]).2.2.2 (by decide)
      (by decide)).1⟩

/-- C9: with `warn_on_fallback=true` every evaluated-path execution emits
exactly one fallback warning (warning count equals interpreter start-event
count over any call sequence); with it false no warning is ever emitted;
and every warning names the function and the inferred argument shapes. -/
theorem C9_fallback_warnings (env : Env) (st : St)
    (calls : List (List PyVal)) :
    (env.warn_on_fallback = true →
      countWarn (runCalls env st calls).2 =
        countEv (Ev.startEvent interpreterEventKind)
          (runCalls env st calls).2) ∧
    (env.warn_on_fallback = false → countWarn (runCalls env st calls).2 = 0) ∧
    (∀ args, ∀ e ∈ (dispatcherCall env st args false).trace,
      isWarnEv e = true →
      e = Ev.warn (fallbackMsg env.funcName (sigOf args))) := by
  refine ⟨fun hw => ?_, fun hw => ?_, fun args => call_warn_named env st args⟩
  · have h := runCalls_warn_count env calls st
    rwa [hw, if_pos rfl] at h
  · have h := runCalls_warn_count env calls st
    rwa [hw] at h

/-- C9 witness on concrete sequences with the flag on and off. -/
theorem C9_fallback_warnings_witness :
    countWarn (runCalls interpWarnEnv freshSt
        [[PyVal.vstr "a"], [PyVal.vstr "b"]]).2 =
      countEv (Ev.startEvent interpreterEventKind)
        (runCalls interpWarnEnv freshSt
          [[PyVal.vstr "a"], [PyVal.vstr "b"]]).2 ∧
    countWarn (runCalls alwaysJitEnv freshSt [[PyVal.vint 3]]).2 = 0 ∧
    Ev.warn (fallbackMsg "f" [Shape.unicode]) =
      Ev.warn (fallbackMsg interpWarnEnv.funcName (sigOf [PyVal.vstr "a"])) :=
  ⟨(C9_fallback_warnings interpWarnEnv freshSt
      [[PyVal.vstr "a"], [PyVal.vstr "b"]]).1 rfl,
   (C9_fallback_warnings alwaysJitEnv freshSt [[PyVal.vint 3]]).2.1 rfl,
   (C9_fallback_warnings interpWarnEnv freshSt []).2.2 [PyVal.vstr "a"]
     (Ev.warn (fallbackMsg "f" [Shape.unicode])) (by decide) (by decide)⟩

/-- C10: any call passing keyword arguments fails with the
"kwargs not handled" AssertionError during signature derivation: the state
is unchanged, no event is emitted, and no policy decision, compilation or
backend execution takes place. -/
theorem C10_kwargs_assertion (env : Env) (st : St) (args : List PyVal) :
    dispatcherCall env st args true =
      ⟨st, [], .error (.assertionError "kwargs not handled")⟩ := rfl

end SmartJit
